import Mathlib

/-!
Verification of the response validation and normalization pipeline of
`screening_utils.py` (clinical-trial eligibility screening).

The Python source is shallowly embedded: JSON values decoded by `json.loads`
are modelled by the inductive type `Json`; Python dicts holding the model's
answer are modelled by `RawResult` (one optional `Json` per expected key;
keys other than the seven expected ones are neither read nor written by
`_validate_and_fix_result`, so they are not modelled).  Python string
operations used by the source (`str()`, `.strip()`, `.upper()`, slicing)
are modelled character-exactly on `List Char`.  JSON numbers are modelled
as integers, and `repr` of nested strings is modelled without escape
handling; no code path under verification depends on either refinement.
-/

/-- A JSON value as produced by `json.loads` (numbers modelled as integers;
Python `None`/`True`/`False` correspond to `null`/`bool`). -/
inductive Json where
  | null
  | bool (b : Bool)
  | num (n : Int)
  | str (s : String)
  | arr (elems : List Json)
  | obj (fields : List (String × Json))
deriving Repr

/-- Characters treated as whitespace by Python's `str.strip()` (ASCII part). -/
def pyWs (c : Char) : Bool := c.isWhitespace

/-- `str.strip()` on a character list: drop whitespace from both ends. -/
def stripChars (l : List Char) : List Char :=
  ((l.dropWhile pyWs).reverse.dropWhile pyWs).reverse

/-- Python `str.strip()`. -/
def pyStrip (s : String) : String := String.mk (stripChars s.data)

/-- Python `str.upper()` (ASCII). -/
def pyUpper (s : String) : String := String.mk (s.data.map Char.toUpper)

/-- The decimal digit character for `d < 10`. -/
def digitChar (d : Nat) : Char := Char.ofNat (48 + d)

/-- Decimal digits of `n`, most significant first (`fuel` bounds the digit
count; any `fuel > log10 n` gives the exact decimal representation). -/
def natDigits : Nat → Nat → List Char
  | 0, _ => []
  | fuel + 1, n =>
    if n < 10 then [digitChar n]
    else natDigits fuel (n / 10) ++ [digitChar (n % 10)]

/-- Python `str()` of a non-negative integer: decimal digits. -/
def pyNatStr (n : Nat) : String := String.mk (natDigits (n + 1) n)

/-- Python `str()` of an integer. -/
def pyIntStr (i : Int) : String :=
  if i < 0 then "-" ++ pyNatStr i.natAbs else pyNatStr i.natAbs

mutual
/-- Python `repr()` of a JSON-decoded value (string escaping not modelled). -/
def pyRepr : Json → String
  | .null => "None"
  | .bool b => if b then "True" else "False"
  | .num n => pyIntStr n
  | .str s => "\x27" ++ s ++ "\x27"
  | .arr l => "[" ++ pyReprItems l ++ "]"
  | .obj l => "\x7b" ++ pyReprFields l ++ "\x7d"

/-- Comma-separated `repr`s of list items. -/
def pyReprItems : List Json → String
  | [] => ""
  | [x] => pyRepr x
  | x :: y :: rest => pyRepr x ++ ", " ++ pyReprItems (y :: rest)

/-- Comma-separated `repr`s of dict entries. -/
def pyReprFields : List (String × Json) → String
  | [] => ""
  | [(k, v)] => "\x27" ++ k ++ "\x27: " ++ pyRepr v
  | (k, v) :: y :: rest => "\x27" ++ k ++ "\x27: " ++ pyRepr v ++ ", " ++ pyReprFields (y :: rest)
end

/-- Python `str()` of a JSON-decoded value. -/
def pyStr : Json → String
  | .str s => s
  | .null => "None"
  | .bool b => if b then "True" else "False"
  | .num n => pyIntStr n
  | .arr l => "[" ++ pyReprItems l ++ "]"
  | .obj l => "\x7b" ++ pyReprFields l ++ "\x7d"

/-- Python truthiness of a JSON-decoded value. -/
def pyTruthy : Json → Bool
  | .null => false
  | .bool b => b
  | .num n => n != 0
  | .str s => s != ""
  | .arr l => !l.isEmpty
  | .obj l => !l.isEmpty

/-- Python `text[:n]` (by code points). -/
def pyTake (n : Nat) (s : String) : String := String.mk (s.data.take n)

/-- `ALLOWED_DECISIONS` from `screening_utils.py`. -/
def allowedDecisions : List String := ["ELIGIBLE", "INELIGIBLE", "UNCERTAIN", "ERROR"]

/-- `_ensure_list` from `screening_utils.py`: normalize a field into a list of
strings.  `Json.null` is Python `None`; the argument is the dict value of the
key (always present when called from `_validate_and_fix_result`). -/
def ensureList : Json → List String
  | .null => []
  | .arr l => (l.map fun x => pyStrip (pyStr x)).filter (fun s => s != "")
  | .str s => if pyStrip s = "" then [] else [pyStrip s]
  | v => if pyStrip (pyStr v) = "" then [] else [pyStrip (pyStr v)]

/-- `_normalize_decision` from `screening_utils.py` applied to a present dict
value (`Json.null` is Python `None`, which hits the early `ERROR` return). -/
def normalizeDecision (decision : Json) : String :=
  match decision with
  | .null => "ERROR"
  | v =>
    let d := pyUpper (pyStrip (pyStr v))
    if d = "ELIGIBLE" ∨ d = "INELIG" then "ELIGIBLE"
    else if d = "INELIGIBLE" ∨ d = "NOT_ELIGIBLE" ∨ d = "INELIGIBLE." then "INELIGIBLE"
    else if d = "UNCERTAIN" ∨ d = "UNKNOWN" ∨ d = "UNSURE" then "UNCERTAIN"
    else if d = "ERROR" then "ERROR"
    else "ERROR"

/-- The input dict of `_validate_and_fix_result`, restricted to the seven
`EXPECTED_KEYS`; `none` means the key is absent.  Keys outside
`EXPECTED_KEYS` are never read nor written by the function and are carried
through unchanged, so they are not modelled. -/
structure RawResult where
  decision : Option Json
  reason : Option Json
  inclusion_criteria_met : Option Json
  inclusion_criteria_not_met : Option Json
  exclusion_criteria_met : Option Json
  exclusion_criteria_not_met : Option Json
  missing_info : Option Json
deriving Repr

/-- The dict returned by `_validate_and_fix_result`: after the function all
seven expected keys hold values of the shapes recorded here. -/
structure FixedResult where
  decision : String
  reason : String
  inclusion_criteria_met : List String
  inclusion_criteria_not_met : List String
  exclusion_criteria_met : List String
  exclusion_criteria_not_met : List String
  missing_info : List String
deriving Repr, DecidableEq

/-- The warning text of the missing-key loop (lines 94-97). -/
def missingKeyMsg (k : String) : String :=
  "Missing key \x27" ++ k ++ "\x27 was added with a default value."

def invalidDecisionMsg : String := "Decision was invalid; set to ERROR."

def coercedReasonMsg : String := "Reason was not a string; coerced to string."

def rule1Msg : String :=
  "Decision changed to INELIGIBLE because at least one exclusion criterion was met."

def rule2Msg : String :=
  "Decision changed to INELIGIBLE because at least one inclusion criterion was not met."

def rule3Msg : String :=
  "Decision changed to UNCERTAIN because missing information was reported."

def guardMsg : String := "Decision not in allowed set; forced to ERROR."

/-- The three consistency rules of `_validate_and_fix_result` (lines 117-131),
in source order, each testing the current (possibly already modified)
decision.  Returns the final decision and the warnings of the rules that
fired, in firing order. -/
def applyRules (d : String) (ecm icnm mi : List String) : String × List String :=
  let pa := if d = "ELIGIBLE" ∧ 0 < ecm.length then ("INELIGIBLE", [rule1Msg]) else (d, [])
  let pb := if pa.1 = "ELIGIBLE" ∧ 0 < icnm.length then ("INELIGIBLE", [rule2Msg]) else (pa.1, [])
  let pc := if pb.1 = "ELIGIBLE" ∧ 0 < mi.length then ("UNCERTAIN", [rule3Msg]) else (pb.1, [])
  (pc.1, pa.2 ++ pb.2 ++ pc.2)

/-- The defensive final guard (lines 133-136): force `ERROR` when the
decision is outside `ALLOWED_DECISIONS`. -/
def finalGuard (d : String) : String × List String :=
  if d ∈ allowedDecisions then (d, []) else ("ERROR", [guardMsg])

/-- Lines 138-145: append at most the first two validation warnings to the
reason unless the decision is `ERROR`. -/
def appendNote (reason d : String) (warnings : List String) : String :=
  if warnings ≠ [] ∧ d ≠ "ERROR" then
    let base := pyStrip reason
    let note := " | Validation: " ++ String.intercalate "; " (warnings.take 2)
    if base ≠ "" then base ++ note else "Validation applied." ++ note
  else reason

/-- Lines 117-147 of `_validate_and_fix_result`, after decision/reason/list
normalization produced `d1` (normalized decision), `rea` (reason as string)
and the five normalized list fields; `wPre` holds the warnings collected so
far in order of appearance. -/
def enforceAndFinish (d1 rea : String) (icm icnm ecm ecnm mi : List String)
    (wPre : List String) : FixedResult × List String :=
  let pr := applyRules d1 ecm icnm mi
  let pg := finalGuard pr.1
  let warnings := wPre ++ pr.2 ++ pg.2
  ({ decision := pg.1, reason := appendNote rea pg.1 warnings,
     inclusion_criteria_met := icm, inclusion_criteria_not_met := icnm,
     exclusion_criteria_met := ecm, exclusion_criteria_not_met := ecnm,
     missing_info := mi }, warnings)

/-- The warnings of the missing-key loop (lines 93-97), in `EXPECTED_KEYS`
order. -/
def vafFillWarnings (result : RawResult) : List String :=
  (if result.decision.isNone then [missingKeyMsg "decision"] else []) ++
  (if result.reason.isNone then [missingKeyMsg "reason"] else []) ++
  (if result.inclusion_criteria_met.isNone then [missingKeyMsg "inclusion_criteria_met"] else []) ++
  (if result.inclusion_criteria_not_met.isNone then [missingKeyMsg "inclusion_criteria_not_met"] else []) ++
  (if result.exclusion_criteria_met.isNone then [missingKeyMsg "exclusion_criteria_met"] else []) ++
  (if result.exclusion_criteria_not_met.isNone then [missingKeyMsg "exclusion_criteria_not_met"] else []) ++
  (if result.missing_info.isNone then [missingKeyMsg "missing_info"] else [])

/-- Line 100: the normalized decision (a missing key was first filled with
`""` by the loop of lines 93-97). -/
def vafDecision1 (result : RawResult) : String :=
  normalizeDecision (result.decision.getD (Json.str ""))

/-- Lines 101-104: substitute a default reason when the decision normalized
to `ERROR` and the reason value is falsy. -/
def vafReasonPair (result : RawResult) : Json × List String :=
  if vafDecision1 result = "ERROR" ∧ pyTruthy (result.reason.getD (Json.str "")) = false then
    (Json.str "Invalid or missing decision returned by model.", [invalidDecisionMsg])
  else (result.reason.getD (Json.str ""), [])

/-- Lines 106-108: coerce a non-string reason with `str(...).strip()`,
warning when a coercion happened. -/
def reasonToStr : Json → String × List String
  | .str s => (s, [])
  | v => (pyStrip (pyStr v), [coercedReasonMsg])

/-- The reason after the coercion of lines 106-108. -/
def vafReasonStr (result : RawResult) : String × List String :=
  reasonToStr (vafReasonPair result).1

/-- `_validate_and_fix_result` from `screening_utils.py`: fill missing keys
with defaults (lines 93-97), normalize decision and reason (lines 99-108),
normalize the list fields (lines 110-115), then apply the consistency rules,
the guard and the warning note (lines 117-147). -/
def validateAndFix (result : RawResult) : FixedResult × List String :=
  enforceAndFinish (vafDecision1 result) (vafReasonStr result).1
    (ensureList (result.inclusion_criteria_met.getD (Json.arr [])))
    (ensureList (result.inclusion_criteria_not_met.getD (Json.arr [])))
    (ensureList (result.exclusion_criteria_met.getD (Json.arr [])))
    (ensureList (result.exclusion_criteria_not_met.getD (Json.arr [])))
    (ensureList (result.missing_info.getD (Json.arr [])))
    (vafFillWarnings result ++ (vafReasonPair result).2 ++ (vafReasonStr result).2)

/-- Re-injection of an already-fixed result as a raw dict, for feeding the
normalizer its own output (decision and reason as JSON strings, list fields
as JSON arrays of strings). -/
def fixedToRaw (f : FixedResult) : RawResult :=
  { decision := some (Json.str f.decision),
    reason := some (Json.str f.reason),
    inclusion_criteria_met := some (Json.arr (f.inclusion_criteria_met.map Json.str)),
    inclusion_criteria_not_met := some (Json.arr (f.inclusion_criteria_not_met.map Json.str)),
    exclusion_criteria_met := some (Json.arr (f.exclusion_criteria_met.map Json.str)),
    exclusion_criteria_not_met := some (Json.arr (f.exclusion_criteria_not_met.map Json.str)),
    missing_info := some (Json.arr (f.missing_info.map Json.str)) }

/-- Does `needle` occur at the start of `hay`? -/
def leadsWith : List Char → List Char → Bool
  | [], _ => true
  | _ :: _, [] => false
  | a :: as, b :: bs => a == b && leadsWith as bs

/-- After the candidate's closing brace, the pattern `\s*` + three backticks
must follow (backticks are not whitespace, so the greedy `\s*` is forced to
consume exactly the whitespace run). -/
def fenceTail (l : List Char) : Bool := leadsWith "```".data (l.dropWhile pyWs)

/-- The lazy `.*?\}` of the fenced-block regex: consume the shortest prefix
ending in `}` whose remainder matches `\s*` + three backticks. -/
def lazyClose : List Char → Option (List Char)
  | [] => none
  | c :: rest =>
    if c = '\x7d' ∧ fenceTail rest then some [c]
    else
      match lazyClose rest with
      | some g => some (c :: g)
      | none => none

/-- Case-insensitive test for a leading `json` tag (the regex is compiled
with `re.IGNORECASE`). -/
def jsonTagCI (l : List Char) : Bool :=
  match l with
  | a :: b :: c :: d :: _ =>
    a.toLower == 'j' && b.toLower == 's' && c.toLower == 'o' && d.toLower == 'n'
  | _ => false

/-- One attempt of the fenced-block regex at the current position: three
backticks, an optional (case-insensitive) `json` tag, whitespace, then the
lazily matched `\{.*?\}` group.  When the optional tag is present the
no-tag alternative can never match (`j` is neither whitespace nor `{`), so
the optional group is deterministic. -/
def tryFenceAt (l : List Char) : Option (List Char) :=
  if leadsWith "```".data l then
    let r := l.drop 3
    let r2 := if jsonTagCI r then r.drop 4 else r
    match r2.dropWhile pyWs with
    | '\x7b' :: rest =>
      match lazyClose rest with
      | some g => some ('\x7b' :: g)
      | none => none
    | _ => none
  else none

/-- `re.search` of the fenced-block pattern: leftmost matching start
position wins. -/
def fenceSearch : List Char → Option (List Char)
  | [] => none
  | l@(_ :: rest) =>
    match tryFenceAt l with
    | some g => some g
    | none => fenceSearch rest

/-- The brace-matching loop of `_extract_json_candidate` (lines 44-52):
`depth` is the running depth before consuming the next character; on `}` the
loop returns the consumed prefix once the depth falls to zero. -/
def scanFrom (depth : Int) : List Char → Option (List Char)
  | [] => none
  | c :: rest =>
    if c = '\x7b' then
      match scanFrom (depth + 1) rest with
      | some g => some (c :: g)
      | none => none
    else if c = '\x7d' then
      if depth - 1 = 0 then some [c]
      else
        match scanFrom (depth - 1) rest with
        | some g => some (c :: g)
        | none => none
    else
      match scanFrom depth rest with
      | some g => some (c :: g)
      | none => none

/-- `_extract_json_candidate` from `screening_utils.py`: empty input fails;
a fenced block is preferred; otherwise brace matching from the first `{`. -/
def extractJsonCandidate (text : String) : String :=
  if text = "" then ""
  else
    match fenceSearch text.data with
    | some g => String.mk (stripChars g)
    | none =>
      match text.data.dropWhile (fun c => c != '\x7b') with
      | [] => ""
      | r =>
        match scanFrom 0 r with
        | some g => String.mk (stripChars g)
        | none => ""

/-- `isinstance(patient_data, dict) and patient_data` (line 154). -/
def isNonEmptyDict : Json → Bool
  | .obj l => !l.isEmpty
  | _ => false

/-- A dict returned by `screen_patient`: the error paths carry only the keys
`decision`, `reason` and `missing_info` (the four criteria lists are absent,
modelled as `none`); the success path carries all seven keys. -/
structure ScreenResult where
  decision : String
  reason : String
  missing_info : List String
  inclusion_criteria_met : Option (List String)
  inclusion_criteria_not_met : Option (List String)
  exclusion_criteria_met : Option (List String)
  exclusion_criteria_not_met : Option (List String)
deriving Repr, DecidableEq

/-- The three-key error dicts of `screen_patient`. -/
def errRecord (reason : String) (mi : List String) : ScreenResult :=
  { decision := "ERROR", reason := reason, missing_info := mi,
    inclusion_criteria_met := none, inclusion_criteria_not_met := none,
    exclusion_criteria_met := none, exclusion_criteria_not_met := none }

/-- The success dict of `screen_patient` (all seven keys present). -/
def fixedToScreen (f : FixedResult) : ScreenResult :=
  { decision := f.decision, reason := f.reason, missing_info := f.missing_info,
    inclusion_criteria_met := some f.inclusion_criteria_met,
    inclusion_criteria_not_met := some f.inclusion_criteria_not_met,
    exclusion_criteria_met := some f.exclusion_criteria_met,
    exclusion_criteria_not_met := some f.exclusion_criteria_not_met }

/-- Lookup in a dict built by `json.loads`: a duplicated key keeps its last
occurrence. -/
def dictGet : List (String × Json) → String → Option Json
  | [], _ => none
  | (k2, v) :: rest, k =>
    match dictGet rest k with
    | some v2 => some v2
    | none => if k2 = k then some v else none

/-- View a parsed JSON object as the input dict of
`_validate_and_fix_result`. -/
def rawOfObj (fields : List (String × Json)) : RawResult :=
  { decision := dictGet fields "decision",
    reason := dictGet fields "reason",
    inclusion_criteria_met := dictGet fields "inclusion_criteria_met",
    inclusion_criteria_not_met := dictGet fields "inclusion_criteria_not_met",
    exclusion_criteria_met := dictGet fields "exclusion_criteria_met",
    exclusion_criteria_not_met := dictGet fields "exclusion_criteria_not_met",
    missing_info := dictGet fields "missing_info" }

/-- `screen_patient` from `screening_utils.py` (lines 149-240).  External
effects are oracle parameters: `initOutcome` is the outcome of constructing
`genai.GenerativeModel` (lines 161-168); `genOutcome` is the outcome of the
guarded block's model call, carrying the response's optional `text`
attribute on success (`getattr(response, "text", "") or ""`, line 206) and
the exception message on failure (lines 235-240); `parseJson` is the
external `json.loads` (line 217), returning the exception message on
failure.  The trial text and model name only enter the prompt, which no
modelled branch inspects. -/
def screenPatient (patient_data : Json) (initOutcome : Except String Unit)
    (genOutcome : Except String (Option String))
    (parseJson : String → Except String Json) : ScreenResult :=
  if isNonEmptyDict patient_data = false then
    errRecord "Invalid patient_data dict." ["patient_data"]
  else
    match initOutcome with
    | .error e => errRecord ("Model init failed: " ++ e) []
    | .ok _ =>
      match genOutcome with
      | .error e => errRecord e []
      | .ok textOpt =>
        if extractJsonCandidate (textOpt.getD "") = "" then
          errRecord
            ("No JSON found in model response. Raw: " ++ pyTake 100 (textOpt.getD "")) []
        else
          match parseJson (extractJsonCandidate (textOpt.getD "")) with
          | .error e => errRecord ("Failed to parse JSON: " ++ e) []
          | .ok (.obj fields) => fixedToScreen (validateAndFix (rawOfObj fields)).1
          | .ok _ => errRecord "Parsed JSON is not an object." []

/-- Running brace count of a text: `+1` per `{`, `-1` per `}` (analysis
device for stating when the brace scanner finds exactly a given object). -/
def braceDelta : List Char → Int
  | [] => 0
  | c :: t => (if c = '\x7b' then 1 else if c = '\x7d' then -1 else 0) + braceDelta t

/-- Does `needle` occur as a contiguous run inside `hay`? -/
def hasSub (needle : List Char) : List Char → Bool
  | [] => leadsWith needle []
  | hay@(_ :: rest) => leadsWith needle hay || hasSub needle rest

example : normalizeDecision (Json.str " eligible ") = "ELIGIBLE" := by decide
example : normalizeDecision (Json.str "MAYBE") = "ERROR" := by decide
example : normalizeDecision (Json.str "INELIG") = "ELIGIBLE" := by decide
example : pyStrip "  a b " = "a b" := by decide
example : pyIntStr (-143) = "-143" := by decide
example : pyStr (Json.arr [Json.str "a", Json.num 2]) = "[\x27a\x27, 2]" := by decide

/-! ### Lemmas about the modelled Python string primitives -/

theorem head?_dropWhile_not (p : Char → Bool) :
    ∀ l : List Char, ∀ a, (l.dropWhile p).head? = some a → p a = false := by
  intro l
  induction l with
  | nil => intro a h; simp [List.dropWhile] at h
  | cons c t ih =>
    intro a h
    rw [List.dropWhile_cons] at h
    by_cases hc : p c = true
    · rw [if_pos hc] at h
      exact ih a h
    · rw [if_neg hc] at h
      simp only [List.head?_cons, Option.some.injEq] at h
      rw [← h]
      exact Bool.eq_false_iff.mpr hc

theorem dropWhile_eq_self_head (p : Char → Bool) (l : List Char)
    (h : ∀ a, l.head? = some a → p a = false) : l.dropWhile p = l := by
  cases l with
  | nil => rfl
  | cons c t =>
    rw [List.dropWhile_cons, h c rfl]
    simp

theorem stripChars_eq_self (l : List Char)
    (h1 : ∀ a, l.head? = some a → pyWs a = false)
    (h2 : ∀ b, l.getLast? = some b → pyWs b = false) : stripChars l = l := by
  unfold stripChars
  rw [dropWhile_eq_self_head _ _ h1]
  rw [dropWhile_eq_self_head _ _ (fun a ha => h2 a (by rwa [List.head?_reverse] at ha))]
  exact List.reverse_reverse l

theorem stripChars_head_last (l : List Char) :
    stripChars l = [] ∨
      ((∀ a, (stripChars l).head? = some a → pyWs a = false) ∧
       (∀ b, (stripChars l).getLast? = some b → pyWs b = false)) := by
  by_cases hB : (l.dropWhile pyWs).reverse.dropWhile pyWs = []
  · left
    unfold stripChars
    rw [hB]
    rfl
  · right
    constructor
    · intro a ha
      unfold stripChars at ha
      rw [List.head?_reverse] at ha
      have hsplit := List.takeWhile_append_dropWhile (p := pyWs) (l := (l.dropWhile pyWs).reverse)
      have hlast : ((l.dropWhile pyWs).reverse.dropWhile pyWs).getLast? =
          (l.dropWhile pyWs).reverse.getLast? := by
        conv_rhs => rw [← hsplit]
        rw [List.getLast?_append]
        cases hg : ((l.dropWhile pyWs).reverse.dropWhile pyWs).getLast? with
        | none => exact absurd (List.getLast?_eq_none_iff.mp hg) hB
        | some x => rfl
      rw [hlast, List.getLast?_reverse] at ha
      exact head?_dropWhile_not pyWs l a ha
    · intro b hb
      unfold stripChars at hb
      rw [List.getLast?_reverse] at hb
      exact head?_dropWhile_not pyWs _ b hb

theorem stripChars_idem (l : List Char) : stripChars (stripChars l) = stripChars l := by
  rcases stripChars_head_last l with h | ⟨h1, h2⟩
  · rw [h]
    rfl
  · exact stripChars_eq_self _ h1 h2

theorem data_mk (l : List Char) : (String.mk l).data = l := rfl

theorem pyStrip_idem (s : String) : pyStrip (pyStrip s) = pyStrip s := by
  unfold pyStrip
  rw [data_mk, stripChars_idem]

theorem mk_eq_empty_iff (l : List Char) : String.mk l = "" ↔ l = [] := by
  constructor
  · intro h
    have := congrArg String.data h
    rwa [data_mk] at this
  · intro h
    rw [h]

theorem stripChars_eq_self_all (l : List Char) (h : ∀ c ∈ l, pyWs c = false) :
    stripChars l = l := by
  apply stripChars_eq_self
  · intro a ha
    exact h a (List.mem_of_mem_head? ha)
  · intro b hb
    exact h b (List.mem_of_mem_getLast? hb)

theorem natDigits_digits :
    ∀ fuel n c, c ∈ natDigits fuel n → ∃ d, d < 10 ∧ c = digitChar d := by
  intro fuel
  induction fuel with
  | zero => intro n c h; simp [natDigits] at h
  | succ f ih =>
    intro n c h
    rw [natDigits] at h
    by_cases hn : n < 10
    · rw [if_pos hn] at h
      simp only [List.mem_singleton] at h
      exact ⟨n, hn, h⟩
    · rw [if_neg hn] at h
      rcases List.mem_append.mp h with h | h
      · exact ih _ _ h
      · simp only [List.mem_singleton] at h
        exact ⟨n % 10, Nat.mod_lt _ (by omega), h⟩

theorem natDigits_succ_ne_nil (f n : Nat) : natDigits (f + 1) n ≠ [] := by
  rw [natDigits]
  split <;> simp

theorem digitChar_not_ws (d : Nat) (h : d < 10) : pyWs (digitChar d) = false := by
  interval_cases d <;> decide

theorem pyNatStr_chars (n : Nat) (c : Char) (h : c ∈ (pyNatStr n).data) :
    pyWs c = false := by
  unfold pyNatStr at h
  rw [data_mk] at h
  obtain ⟨d, hd, rfl⟩ := natDigits_digits _ _ _ h
  exact digitChar_not_ws d hd

theorem pyNatStr_ne_nil (n : Nat) : (pyNatStr n).data ≠ [] := by
  unfold pyNatStr
  rw [data_mk]
  exact natDigits_succ_ne_nil n n

theorem pyIntStr_chars (i : Int) (c : Char) (h : c ∈ (pyIntStr i).data) :
    pyWs c = false := by
  unfold pyIntStr at h
  split at h
  · rw [String.data_append] at h
    rcases List.mem_append.mp h with h | h
    · simp only [show ("-" : String).data = ['-'] from rfl, List.mem_singleton] at h
      rw [h]
      decide
    · exact pyNatStr_chars _ _ h
  · exact pyNatStr_chars _ _ h

theorem pyIntStr_ne_nil (i : Int) : (pyIntStr i).data ≠ [] := by
  unfold pyIntStr
  split
  · rw [String.data_append]
    simp [pyNatStr_ne_nil]
  · exact pyNatStr_ne_nil _

theorem strip_delimited (a b : Char) (ha : pyWs a = false) (hb : pyWs b = false)
    (x : List Char) : stripChars (a :: (x ++ [b])) = a :: (x ++ [b]) := by
  apply stripChars_eq_self
  · intro c hc
    simp only [List.head?_cons, Option.some.injEq] at hc
    rw [← hc]
    exact ha
  · intro c hc
    rw [show a :: (x ++ [b]) = (a :: x) ++ [b] from rfl, List.getLast?_concat] at hc
    rw [← Option.some.injEq _ _ |>.mp hc]
    exact hb

theorem pyStrip_pyStr_ne (v : Json) (hv : ∀ s, v ≠ Json.str s) :
    pyStrip (pyStr v) ≠ "" := by
  cases v with
  | str s => exact absurd rfl (hv s)
  | null => decide
  | bool b => cases b <;> decide
  | num n =>
    intro hEmpty
    rw [show pyStrip (pyStr (Json.num n)) = String.mk (stripChars (pyIntStr n).data) from rfl,
      mk_eq_empty_iff,
      stripChars_eq_self_all _ (fun c hc => pyIntStr_chars n c hc)] at hEmpty
    exact pyIntStr_ne_nil n hEmpty
  | arr l =>
    intro hEmpty
    have hdata : ("[" ++ pyReprItems l ++ "]").data =
        '[' :: ((pyReprItems l).data ++ [']']) := by
      simp [String.data_append]
    rw [show pyStrip (pyStr (Json.arr l)) =
        String.mk (stripChars ("[" ++ pyReprItems l ++ "]").data) from rfl,
      mk_eq_empty_iff, hdata,
      strip_delimited '[' ']' (by decide) (by decide)] at hEmpty
    simp at hEmpty
  | obj l =>
    intro hEmpty
    have hdata : ("\x7b" ++ pyReprFields l ++ "\x7d").data =
        Char.ofNat 123 :: ((pyReprFields l).data ++ [Char.ofNat 125]) := by
      simp [String.data_append]
    rw [show pyStrip (pyStr (Json.obj l)) =
        String.mk (stripChars ("\x7b" ++ pyReprFields l ++ "\x7d").data) from rfl,
      mk_eq_empty_iff, hdata,
      strip_delimited (Char.ofNat 123) (Char.ofNat 125) (by decide) (by decide)] at hEmpty
    simp at hEmpty

theorem ensureList_mem (j : Json) (s : String) (h : s ∈ ensureList j) :
    s ≠ "" ∧ pyStrip s = s := by
  cases j with
  | null => simp [ensureList] at h
  | arr l =>
    simp only [ensureList, List.mem_filter, List.mem_map] at h
    obtain ⟨⟨x, _, rfl⟩, hne⟩ := h
    exact ⟨by simpa using hne, pyStrip_idem _⟩
  | str s0 =>
    simp only [ensureList] at h
    split at h
    · simp at h
    · next hcond =>
      simp only [List.mem_singleton] at h
      subst h
      exact ⟨hcond, pyStrip_idem _⟩
  | bool b =>
    simp only [ensureList] at h
    split at h
    · simp at h
    · next hcond =>
      simp only [List.mem_singleton] at h
      subst h
      exact ⟨hcond, pyStrip_idem _⟩
  | num n =>
    simp only [ensureList] at h
    split at h
    · simp at h
    · next hcond =>
      simp only [List.mem_singleton] at h
      subst h
      exact ⟨hcond, pyStrip_idem _⟩
  | obj l =>
    simp only [ensureList] at h
    split at h
    · simp at h
    · next hcond =>
      simp only [List.mem_singleton] at h
      subst h
      exact ⟨hcond, pyStrip_idem _⟩

/-! ### Lemmas about decision normalization and the override rules -/

theorem decisionChain_mem (s : String) :
    (if s = "ELIGIBLE" ∨ s = "INELIG" then "ELIGIBLE"
     else if s = "INELIGIBLE" ∨ s = "NOT_ELIGIBLE" ∨ s = "INELIGIBLE." then "INELIGIBLE"
     else if s = "UNCERTAIN" ∨ s = "UNKNOWN" ∨ s = "UNSURE" then "UNCERTAIN"
     else if s = "ERROR" then "ERROR"
     else "ERROR") ∈ allowedDecisions := by
  split_ifs <;> simp [allowedDecisions]

theorem normalizeDecision_mem (v : Json) : normalizeDecision v ∈ allowedDecisions := by
  cases v with
  | null => decide
  | bool b => exact decisionChain_mem _
  | num n => exact decisionChain_mem _
  | str s => exact decisionChain_mem _
  | arr l => exact decisionChain_mem _
  | obj l => exact decisionChain_mem _

theorem normalizeDecision_fixed (d : String) (h : d ∈ allowedDecisions) :
    normalizeDecision (Json.str d) = d := by
  simp only [allowedDecisions, List.mem_cons, List.mem_singleton] at h
  rcases h with rfl | rfl | rfl | rfl | h
  · decide
  · decide
  · decide
  · decide
  · simp at h

theorem applyRules_cases (d : String) (e i m : List String) :
    (d = "ELIGIBLE" ∧ 0 < e.length ∧ applyRules d e i m = ("INELIGIBLE", [rule1Msg])) ∨
    (d = "ELIGIBLE" ∧ e.length = 0 ∧ 0 < i.length ∧
      applyRules d e i m = ("INELIGIBLE", [rule2Msg])) ∨
    (d = "ELIGIBLE" ∧ e.length = 0 ∧ i.length = 0 ∧ 0 < m.length ∧
      applyRules d e i m = ("UNCERTAIN", [rule3Msg])) ∨
    ((d ≠ "ELIGIBLE" ∨ (e.length = 0 ∧ i.length = 0 ∧ m.length = 0)) ∧
      applyRules d e i m = (d, [])) := by
  by_cases hd : d = "ELIGIBLE"
  · subst hd
    by_cases he : 0 < e.length
    · exact Or.inl ⟨rfl, he, by simp [applyRules, he]⟩
    · by_cases hi : 0 < i.length
      · exact Or.inr (Or.inl ⟨rfl, by omega, hi, by simp [applyRules, he, hi]⟩)
      · by_cases hm : 0 < m.length
        · exact Or.inr (Or.inr (Or.inl ⟨rfl, by omega, by omega, hm,
            by simp [applyRules, he, hi, hm]⟩))
        · exact Or.inr (Or.inr (Or.inr ⟨Or.inr ⟨by omega, by omega, by omega⟩,
            by simp [applyRules, he, hi, hm]⟩))
  · exact Or.inr (Or.inr (Or.inr ⟨Or.inl hd, by simp [applyRules, hd]⟩))

theorem applyRules_no_fire (d : String) (e i m : List String)
    (h : d ≠ "ELIGIBLE" ∨ (e = [] ∧ i = [] ∧ m = [])) :
    applyRules d e i m = (d, []) := by
  rcases applyRules_cases d e i m with ⟨hd, he, _⟩ | ⟨hd, _, hi, _⟩ | ⟨hd, _, _, hm, _⟩ | ⟨_, hr⟩
  · rcases h with h | ⟨h, _, _⟩
    · exact absurd hd h
    · subst h; simp at he
  · rcases h with h | ⟨_, h, _⟩
    · exact absurd hd h
    · subst h; simp at hi
  · rcases h with h | ⟨_, _, h⟩
    · exact absurd hd h
    · subst h; simp at hm
  · exact hr

theorem applyRules_eligible (d : String) (e i m : List String)
    (h : (applyRules d e i m).1 = "ELIGIBLE") :
    d = "ELIGIBLE" ∧ e = [] ∧ i = [] ∧ m = [] := by
  rcases applyRules_cases d e i m with ⟨_, _, hr⟩ | ⟨_, _, _, hr⟩ | ⟨_, _, _, _, hr⟩ | ⟨hc, hr⟩
  · rw [hr] at h; simp at h
  · rw [hr] at h; simp at h
  · rw [hr] at h; simp at h
  · rw [hr] at h
    rcases hc with hc | ⟨he, hi, hm⟩
    · exact absurd h hc
    · exact ⟨h, List.length_eq_zero.mp he, List.length_eq_zero.mp hi, List.length_eq_zero.mp hm⟩

theorem applyRules_error (d : String) (e i m : List String)
    (h : (applyRules d e i m).1 = "ERROR") : d = "ERROR" := by
  rcases applyRules_cases d e i m with ⟨_, _, hr⟩ | ⟨_, _, _, hr⟩ | ⟨_, _, _, _, hr⟩ | ⟨_, hr⟩ <;>
    rw [hr] at h
  · simp at h
  · simp at h
  · simp at h
  · exact h

theorem applyRules_mem (d : String) (e i m : List String) (h : d ∈ allowedDecisions) :
    (applyRules d e i m).1 ∈ allowedDecisions := by
  rcases applyRules_cases d e i m with ⟨_, _, hr⟩ | ⟨_, _, _, hr⟩ | ⟨_, _, _, _, hr⟩ | ⟨_, hr⟩ <;>
    rw [hr]
  · decide
  · decide
  · decide
  · exact h

theorem finalGuard_of_mem (d : String) (h : d ∈ allowedDecisions) : finalGuard d = (d, []) := by
  simp [finalGuard, h]

theorem finalGuard_mem (d : String) : (finalGuard d).1 ∈ allowedDecisions := by
  unfold finalGuard
  split
  · assumption
  · decide

/-! ### Structural lemmas about `validateAndFix` -/

theorem vaf_icm (r : RawResult) : (validateAndFix r).1.inclusion_criteria_met =
    ensureList (r.inclusion_criteria_met.getD (Json.arr [])) := rfl

theorem vaf_icnm (r : RawResult) : (validateAndFix r).1.inclusion_criteria_not_met =
    ensureList (r.inclusion_criteria_not_met.getD (Json.arr [])) := rfl

theorem vaf_ecm (r : RawResult) : (validateAndFix r).1.exclusion_criteria_met =
    ensureList (r.exclusion_criteria_met.getD (Json.arr [])) := rfl

theorem vaf_ecnm (r : RawResult) : (validateAndFix r).1.exclusion_criteria_not_met =
    ensureList (r.exclusion_criteria_not_met.getD (Json.arr [])) := rfl

theorem vaf_mi (r : RawResult) : (validateAndFix r).1.missing_info =
    ensureList (r.missing_info.getD (Json.arr [])) := rfl

theorem vaf_decision_guard (r : RawResult) : (validateAndFix r).1.decision =
    (finalGuard (applyRules (vafDecision1 r)
      (ensureList (r.exclusion_criteria_met.getD (Json.arr [])))
      (ensureList (r.inclusion_criteria_not_met.getD (Json.arr [])))
      (ensureList (r.missing_info.getD (Json.arr [])))).1).1 := rfl

theorem vaf_reason (r : RawResult) : (validateAndFix r).1.reason =
    appendNote (vafReasonStr r).1 (validateAndFix r).1.decision (validateAndFix r).2 := rfl

theorem vaf_warnings (r : RawResult) : (validateAndFix r).2 =
    (vafFillWarnings r ++ (vafReasonPair r).2 ++ (vafReasonStr r).2) ++
      (applyRules (vafDecision1 r)
        (ensureList (r.exclusion_criteria_met.getD (Json.arr [])))
        (ensureList (r.inclusion_criteria_not_met.getD (Json.arr [])))
        (ensureList (r.missing_info.getD (Json.arr [])))).2 ++
      (finalGuard (applyRules (vafDecision1 r)
        (ensureList (r.exclusion_criteria_met.getD (Json.arr [])))
        (ensureList (r.inclusion_criteria_not_met.getD (Json.arr [])))
        (ensureList (r.missing_info.getD (Json.arr [])))).1).2 := rfl

/-- The final guard never fires: the decision reaching it is always in the
allowed set, so it only passes the rules' decision through. -/
theorem vafDecision1_mem (r : RawResult) : vafDecision1 r ∈ allowedDecisions :=
  normalizeDecision_mem _

theorem vaf_decision_rules (r : RawResult) : (validateAndFix r).1.decision =
    (applyRules (vafDecision1 r)
      (ensureList (r.exclusion_criteria_met.getD (Json.arr [])))
      (ensureList (r.inclusion_criteria_not_met.getD (Json.arr [])))
      (ensureList (r.missing_info.getD (Json.arr [])))).1 := by
  rw [vaf_decision_guard,
    finalGuard_of_mem _ (applyRules_mem _ _ _ _ (vafDecision1_mem r))]

theorem vaf_decision_mem (r : RawResult) :
    (validateAndFix r).1.decision ∈ allowedDecisions := by
  rw [vaf_decision_rules]
  exact applyRules_mem _ _ _ _ (vafDecision1_mem r)

/-- If the enforcer's output is still `ELIGIBLE`, the three override lists
are all empty. -/
theorem vaf_eligible_lists (r : RawResult)
    (h : (validateAndFix r).1.decision = "ELIGIBLE") :
    (validateAndFix r).1.exclusion_criteria_met = [] ∧
    (validateAndFix r).1.inclusion_criteria_not_met = [] ∧
    (validateAndFix r).1.missing_info = [] := by
  rw [vaf_decision_rules] at h
  obtain ⟨_, he, hi, hm⟩ := applyRules_eligible _ _ _ _ h
  rw [vaf_ecm, vaf_icnm, vaf_mi]
  exact ⟨he, hi, hm⟩

theorem reasonToStr_ne_of_truthy (v : Json) (h : pyTruthy v = true) :
    (reasonToStr v).1 ≠ "" := by
  cases v with
  | str s =>
    simp only [pyTruthy, bne_iff_ne, ne_eq] at h
    exact h
  | null => simp [pyTruthy] at h
  | bool b => exact pyStrip_pyStr_ne _ (by intro s hs; cases hs)
  | num n => exact pyStrip_pyStr_ne _ (by intro s hs; cases hs)
  | arr l => exact pyStrip_pyStr_ne _ (by intro s hs; cases hs)
  | obj l => exact pyStrip_pyStr_ne _ (by intro s hs; cases hs)

/-- When the normalized decision is `ERROR`, the reason string after lines
101-108 is never empty. -/
theorem vafReasonStr_ne (r : RawResult) (hd : vafDecision1 r = "ERROR") :
    (vafReasonStr r).1 ≠ "" := by
  unfold vafReasonStr vafReasonPair
  by_cases hc : pyTruthy (r.reason.getD (Json.str "")) = false
  · rw [if_pos ⟨hd, hc⟩]
    decide
  · rw [if_neg (by intro hb; exact hc hb.2)]
    exact reasonToStr_ne_of_truthy _ (by
      cases hv : pyTruthy (r.reason.getD (Json.str ""))
      · exact absurd hv hc
      · rfl)

/-- When the enforcer's final decision is `ERROR`, the reason is the
(non-empty) coerced reason, untouched by the note step. -/
theorem vaf_error_reason (r : RawResult)
    (h : (validateAndFix r).1.decision = "ERROR") :
    (validateAndFix r).1.reason = (vafReasonStr r).1 ∧ (validateAndFix r).1.reason ≠ "" := by
  have hd1 : vafDecision1 r = "ERROR" := by
    rw [vaf_decision_rules] at h
    exact applyRules_error _ _ _ _ h
  have hr : (validateAndFix r).1.reason = (vafReasonStr r).1 := by
    rw [vaf_reason, h]
    unfold appendNote
    rw [if_neg (by intro hb; exact hb.2 rfl)]
  exact ⟨hr, hr ▸ vafReasonStr_ne r hd1⟩

theorem ensureList_mapStr (xs : List String) (h : ∀ s ∈ xs, s ≠ "" ∧ pyStrip s = s) :
    ensureList (Json.arr (xs.map Json.str)) = xs := by
  simp only [ensureList, List.map_map]
  have hmap : xs.map (fun s => pyStrip (pyStr (Json.str s))) = xs := by
    rw [show xs.map (fun s => pyStrip (pyStr (Json.str s))) = xs.map (fun s => pyStrip s) from rfl]
    rw [List.map_congr_left (fun s hs => (h s hs).2)]
    exact List.map_id xs
  rw [show xs.map ((fun s => pyStrip (pyStr s)) ∘ Json.str) = xs.map (fun s => pyStrip (pyStr (Json.str s))) from rfl]
  rw [hmap]
  rw [List.filter_eq_self.mpr (fun s hs => bne_iff_ne.mpr (h s hs).1)]

/-- Every element of every list field of the normalizer's output is a
non-empty, strip-fixed string. -/
theorem vaf_list_elems (r : RawResult) (s : String)
    (h : s ∈ (validateAndFix r).1.inclusion_criteria_met ∨
         s ∈ (validateAndFix r).1.inclusion_criteria_not_met ∨
         s ∈ (validateAndFix r).1.exclusion_criteria_met ∨
         s ∈ (validateAndFix r).1.exclusion_criteria_not_met ∨
         s ∈ (validateAndFix r).1.missing_info) :
    s ≠ "" ∧ pyStrip s = s := by
  rcases h with h | h | h | h | h
  · exact ensureList_mem _ _ (by rwa [vaf_icm] at h)
  · exact ensureList_mem _ _ (by rwa [vaf_icnm] at h)
  · exact ensureList_mem _ _ (by rwa [vaf_ecm] at h)
  · exact ensureList_mem _ _ (by rwa [vaf_ecnm] at h)
  · exact ensureList_mem _ _ (by rwa [vaf_mi] at h)

/-- Running the normalizer + enforcer on a dict that already satisfies its
output invariants changes nothing and produces no warnings. -/
theorem validateAndFix_of_fixed (f : FixedResult)
    (hmem : f.decision ∈ allowedDecisions)
    (herr : f.decision = "ERROR" → f.reason ≠ "")
    (helig : f.decision = "ELIGIBLE" →
      f.exclusion_criteria_met = [] ∧ f.inclusion_criteria_not_met = [] ∧
        f.missing_info = [])
    (hlists : ∀ s,
      (s ∈ f.inclusion_criteria_met ∨ s ∈ f.inclusion_criteria_not_met ∨
       s ∈ f.exclusion_criteria_met ∨ s ∈ f.exclusion_criteria_not_met ∨
       s ∈ f.missing_info) → s ≠ "" ∧ pyStrip s = s) :
    validateAndFix (fixedToRaw f) = (f, []) := by
  have hd1 : vafDecision1 (fixedToRaw f) = f.decision := by
    unfold vafDecision1 fixedToRaw
    simp only [Option.getD_some]
    exact normalizeDecision_fixed _ hmem
  have hpair : vafReasonPair (fixedToRaw f) = (Json.str f.reason, []) := by
    unfold vafReasonPair
    rw [hd1]
    rw [show (fixedToRaw f).reason = some (Json.str f.reason) from rfl]
    simp only [Option.getD_some]
    rw [if_neg]
    intro hb
    obtain ⟨hb1, hb2⟩ := hb
    have hfalse : (f.reason != "") = false := hb2
    rw [bne_eq_false_iff_eq] at hfalse
    exact herr hb1 hfalse
  have hrs : vafReasonStr (fixedToRaw f) = (f.reason, []) := by
    unfold vafReasonStr
    rw [hpair]
    rfl
  have hfill : vafFillWarnings (fixedToRaw f) = [] := by
    simp [vafFillWarnings, fixedToRaw]
  have hicm : ensureList ((fixedToRaw f).inclusion_criteria_met.getD (Json.arr [])) =
      f.inclusion_criteria_met := by
    rw [show (fixedToRaw f).inclusion_criteria_met =
      some (Json.arr (f.inclusion_criteria_met.map Json.str)) from rfl, Option.getD_some]
    exact ensureList_mapStr _ (fun s hs => hlists s (Or.inl hs))
  have hicnm : ensureList ((fixedToRaw f).inclusion_criteria_not_met.getD (Json.arr [])) =
      f.inclusion_criteria_not_met := by
    rw [show (fixedToRaw f).inclusion_criteria_not_met =
      some (Json.arr (f.inclusion_criteria_not_met.map Json.str)) from rfl, Option.getD_some]
    exact ensureList_mapStr _ (fun s hs => hlists s (Or.inr (Or.inl hs)))
  have hecm : ensureList ((fixedToRaw f).exclusion_criteria_met.getD (Json.arr [])) =
      f.exclusion_criteria_met := by
    rw [show (fixedToRaw f).exclusion_criteria_met =
      some (Json.arr (f.exclusion_criteria_met.map Json.str)) from rfl, Option.getD_some]
    exact ensureList_mapStr _ (fun s hs => hlists s (Or.inr (Or.inr (Or.inl hs))))
  have hecnm : ensureList ((fixedToRaw f).exclusion_criteria_not_met.getD (Json.arr [])) =
      f.exclusion_criteria_not_met := by
    rw [show (fixedToRaw f).exclusion_criteria_not_met =
      some (Json.arr (f.exclusion_criteria_not_met.map Json.str)) from rfl, Option.getD_some]
    exact ensureList_mapStr _ (fun s hs => hlists s (Or.inr (Or.inr (Or.inr (Or.inl hs)))))
  have hmi : ensureList ((fixedToRaw f).missing_info.getD (Json.arr [])) =
      f.missing_info := by
    rw [show (fixedToRaw f).missing_info =
      some (Json.arr (f.missing_info.map Json.str)) from rfl, Option.getD_some]
    exact ensureList_mapStr _ (fun s hs => hlists s (Or.inr (Or.inr (Or.inr (Or.inr hs)))))
  have hpair2 : (vafReasonPair (fixedToRaw f)).2 = [] := by rw [hpair]
  have hrules : applyRules f.decision f.exclusion_criteria_met
      f.inclusion_criteria_not_met f.missing_info = (f.decision, []) := by
    apply applyRules_no_fire
    by_cases he : f.decision = "ELIGIBLE"
    · exact Or.inr (helig he)
    · exact Or.inl he
  unfold validateAndFix enforceAndFinish
  simp only [hd1, hrs, hfill, hicm, hicnm, hecm, hecnm, hmi, hpair2]
  simp only [hrules]
  rw [finalGuard_of_mem _ hmem]
  simp [appendNote]

/-! ### Claim theorems -/

/-- C1: for every input dict, the record returned by the Schema Normalizer +
Consistency Enforcer (`_validate_and_fix_result`) never has decision
`ELIGIBLE` while any of `exclusion_criteria_met`,
`inclusion_criteria_not_met` or `missing_info` is a non-empty list. -/
theorem c1_eligible_consistency (r : RawResult)
    (h : (validateAndFix r).1.decision = "ELIGIBLE") :
    (validateAndFix r).1.exclusion_criteria_met = [] ∧
    (validateAndFix r).1.inclusion_criteria_not_met = [] ∧
    (validateAndFix r).1.missing_info = [] :=
  vaf_eligible_lists r h

theorem c1_witness :
    (validateAndFix ⟨some (Json.str "eligible"), some (Json.str "fits"), none,
      none, none, none, none⟩).1.decision = "ELIGIBLE" ∧
    ((validateAndFix ⟨some (Json.str "eligible"), some (Json.str "fits"), none,
      none, none, none, none⟩).1.exclusion_criteria_met = [] ∧
     (validateAndFix ⟨some (Json.str "eligible"), some (Json.str "fits"), none,
      none, none, none, none⟩).1.inclusion_criteria_not_met = [] ∧
     (validateAndFix ⟨some (Json.str "eligible"), some (Json.str "fits"), none,
      none, none, none, none⟩).1.missing_info = []) :=
  ⟨by decide, c1_eligible_consistency _ (by decide)⟩

/-- C2: the three override rules fire in order, each testing the current
decision; for a draft whose decision normalizes to `ELIGIBLE` with non-empty
`exclusion_criteria_met` and non-empty `missing_info`, the final decision is
`INELIGIBLE`, not `UNCERTAIN` — `INELIGIBLE` takes precedence. -/
theorem c2_override_order (r : RawResult)
    (hd : vafDecision1 r = "ELIGIBLE")
    (he : (validateAndFix r).1.exclusion_criteria_met ≠ [])
    (hm : (validateAndFix r).1.missing_info ≠ []) :
    (validateAndFix r).1.decision = "INELIGIBLE" ∧
    (validateAndFix r).1.decision ≠ "UNCERTAIN" := by
  rw [vaf_ecm] at he
  rw [vaf_mi] at hm
  have hlen : 0 < (ensureList (r.exclusion_criteria_met.getD (Json.arr []))).length :=
    List.length_pos.mpr he
  have hmain : (validateAndFix r).1.decision = "INELIGIBLE" := by
    rw [vaf_decision_rules]
    rcases applyRules_cases (vafDecision1 r)
        (ensureList (r.exclusion_criteria_met.getD (Json.arr [])))
        (ensureList (r.inclusion_criteria_not_met.getD (Json.arr [])))
        (ensureList (r.missing_info.getD (Json.arr [])))
      with ⟨_, _, hr⟩ | ⟨_, hz, _, hr⟩ | ⟨_, hz, _, _, hr⟩ | ⟨hc, hr⟩
    · rw [hr]
    · rw [hr]
    · omega
    · rcases hc with hc | ⟨hz, _, _⟩
      · exact absurd hd hc
      · omega
  exact ⟨hmain, by rw [hmain]; decide⟩

theorem c2_witness :
    vafDecision1 ⟨some (Json.str "ELIGIBLE"), some (Json.str "ok"), none, none,
      some (Json.arr [Json.str "X"]), none, some (Json.arr [Json.str "Y"])⟩ = "ELIGIBLE" ∧
    (validateAndFix ⟨some (Json.str "ELIGIBLE"), some (Json.str "ok"), none, none,
      some (Json.arr [Json.str "X"]), none, some (Json.arr [Json.str "Y"])⟩).1.exclusion_criteria_met ≠ [] ∧
    (validateAndFix ⟨some (Json.str "ELIGIBLE"), some (Json.str "ok"), none, none,
      some (Json.arr [Json.str "X"]), none, some (Json.arr [Json.str "Y"])⟩).1.missing_info ≠ [] ∧
    ((validateAndFix ⟨some (Json.str "ELIGIBLE"), some (Json.str "ok"), none, none,
      some (Json.arr [Json.str "X"]), none, some (Json.arr [Json.str "Y"])⟩).1.decision = "INELIGIBLE" ∧
     (validateAndFix ⟨some (Json.str "ELIGIBLE"), some (Json.str "ok"), none, none,
      some (Json.arr [Json.str "X"]), none, some (Json.arr [Json.str "Y"])⟩).1.decision ≠ "UNCERTAIN") :=
  ⟨by decide, by decide, by decide, c2_override_order _ (by decide) (by decide) (by decide)⟩

/-- C7: the Schema Normalizer + Consistency Enforcer is idempotent:
re-running `_validate_and_fix_result` on a record it has already produced
returns the identical record, with no further downgrades and no additional
validation warnings (so no extra notes appended to the reason). -/
theorem c7_idempotent (r : RawResult) :
    validateAndFix (fixedToRaw (validateAndFix r).1) = ((validateAndFix r).1, []) := by
  apply validateAndFix_of_fixed
  · exact vaf_decision_mem r
  · intro h
    exact (vaf_error_reason r h).2
  · exact vaf_eligible_lists r
  · exact vaf_list_elems r

/-- C10: when `screen_patient` is called with a `patient_data` that is not a
dict or is an empty dict, it returns — for every model/parse oracle, i.e.
without the outcome depending on any model invocation — the record with
decision `ERROR`, reason `Invalid patient_data dict.` and
`missing_info = ["patient_data"]`. -/
theorem c10_invalid_patient (pd : Json) (ini : Except String Unit)
    (gen : Except String (Option String)) (p : String → Except String Json)
    (h : isNonEmptyDict pd = false) :
    screenPatient pd ini gen p =
      errRecord "Invalid patient_data dict." ["patient_data"] := by
  unfold screenPatient
  rw [if_pos h]

theorem c10_witness :
    isNonEmptyDict (Json.obj []) = false ∧
    screenPatient (Json.obj []) (Except.ok ()) (Except.ok (some "\x7b\x7d"))
        (fun _ => Except.error "never") =
      errRecord "Invalid patient_data dict." ["patient_data"] :=
  ⟨by decide, c10_invalid_patient _ _ _ _ (by decide)⟩

/-- C8: `_ensure_list` coerces each list field as specified — `None` becomes
`[]`; a list becomes its elements stringified and stripped with empty strings
dropped; a bare string becomes a singleton unless it strips to empty; any
other value is stringified and wrapped as a singleton unless empty — and
consequently every list field of the normalizer's output is a sequence of
non-empty, trimmed strings (order and duplicates preserved by construction:
the coercion is a `map` followed by a `filter`). -/
theorem c8_ensure_list :
    ensureList Json.null = [] ∧
    (∀ l, ensureList (Json.arr l) =
      (l.map fun x => pyStrip (pyStr x)).filter (fun s => s != "")) ∧
    (∀ s : String, pyStrip s = "" → ensureList (Json.str s) = []) ∧
    (∀ s : String, pyStrip s ≠ "" → ensureList (Json.str s) = [pyStrip s]) ∧
    (∀ v : Json, (∀ s, v ≠ Json.str s) → (∀ l, v ≠ Json.arr l) → v ≠ Json.null →
      ensureList v =
        if pyStrip (pyStr v) = "" then [] else [pyStrip (pyStr v)]) ∧
    (∀ (r : RawResult) (s : String),
      (s ∈ (validateAndFix r).1.inclusion_criteria_met ∨
       s ∈ (validateAndFix r).1.inclusion_criteria_not_met ∨
       s ∈ (validateAndFix r).1.exclusion_criteria_met ∨
       s ∈ (validateAndFix r).1.exclusion_criteria_not_met ∨
       s ∈ (validateAndFix r).1.missing_info) →
      s ≠ "" ∧ pyStrip s = s) := by
  refine ⟨rfl, fun l => rfl, ?_, ?_, ?_, vaf_list_elems⟩
  · intro s h
    simp [ensureList, h]
  · intro s h
    simp [ensureList, h]
  · intro v hs ha hn
    cases v with
    | null => exact absurd rfl hn
    | str s => exact absurd rfl (hs s)
    | arr l => exact absurd rfl (ha l)
    | bool b => rfl
    | num n => rfl
    | obj l => rfl

theorem c8_witness :
    (pyStrip "   " = "" ∧ ensureList (Json.str "   ") = []) ∧
    (pyStrip " a " ≠ "" ∧ ensureList (Json.str " a ") = [pyStrip " a "]) ∧
    ((∀ s, Json.num 7 ≠ Json.str s) ∧
      ensureList (Json.num 7) =
        if pyStrip (pyStr (Json.num 7)) = "" then [] else [pyStrip (pyStr (Json.num 7))]) :=
  ⟨⟨by decide, c8_ensure_list.2.2.1 "   " (by decide)⟩,
   ⟨by decide, c8_ensure_list.2.2.2.1 " a " (by decide)⟩,
   ⟨(by intro s h; cases h),
    c8_ensure_list.2.2.2.2.1 (Json.num 7) (by intro s h; cases h)
      (by intro l h; cases h) (by intro h; cases h)⟩⟩

/-- C4 counterexample: `"INELIG"` is outside the four canonical decisions
and outside the synonym sets the claim lists, yet `_normalize_decision`
maps it to `ELIGIBLE` (line 75 places it in the `ELIGIBLE` bucket), not to
`ERROR` as the claim requires for unlisted values. -/
theorem c4_counterexample :
    "INELIG" ∉ allowedDecisions ∧
    pyUpper (pyStrip "INELIG") = "INELIG" ∧
    normalizeDecision (Json.str "INELIG") = "ELIGIBLE" ∧
    normalizeDecision (Json.str "INELIG") ≠ "ERROR" := by
  refine ⟨by decide, by decide, by decide, by decide⟩

/-- C4 amended: `_normalize_decision` trims and uppercases its input and
maps `UNKNOWN`/`UNSURE` to `UNCERTAIN`, `NOT_ELIGIBLE` and `INELIGIBLE.` to
`INELIGIBLE`, `INELIG` to `ELIGIBLE`, and every value whose trimmed
uppercase form is outside these recognized spellings (for example `MAYBE`)
to `ERROR`; lowercase `eligible` with all four constraint lists empty stays
`ELIGIBLE` after the enforcer. -/
theorem c4_amended :
    (∀ s : String,
      pyUpper (pyStrip s) ∉ (["ELIGIBLE", "INELIG", "INELIGIBLE", "NOT_ELIGIBLE",
        "INELIGIBLE.", "UNCERTAIN", "UNKNOWN", "UNSURE", "ERROR"] : List String) →
      normalizeDecision (Json.str s) = "ERROR") ∧
    normalizeDecision (Json.str "MAYBE") = "ERROR" ∧
    normalizeDecision (Json.str " unknown ") = "UNCERTAIN" ∧
    normalizeDecision (Json.str "unsure") = "UNCERTAIN" ∧
    normalizeDecision (Json.str "not_eligible") = "INELIGIBLE" ∧
    normalizeDecision (Json.str "ineligible.") = "INELIGIBLE" ∧
    normalizeDecision (Json.str "INELIG") = "ELIGIBLE" ∧
    (validateAndFix ⟨some (Json.str "eligible"), some (Json.str "fits"),
      some (Json.arr []), some (Json.arr []), some (Json.arr []),
      some (Json.arr []), some (Json.arr [])⟩).1.decision = "ELIGIBLE" := by
  refine ⟨?_, by decide, by decide, by decide, by decide, by decide, by decide, by decide⟩
  intro s h
  simp only [List.mem_cons, List.mem_singleton, not_or] at h
  obtain ⟨h1, h2, h3, h4, h5, h6, h7, h8, h9, -⟩ := h
  simp only [normalizeDecision, pyStr]
  rw [if_neg (by tauto), if_neg (by tauto), if_neg (by tauto), if_neg h9]

theorem c4_witness :
    pyUpper (pyStrip " maybe ") ∉ (["ELIGIBLE", "INELIG", "INELIGIBLE", "NOT_ELIGIBLE",
      "INELIGIBLE.", "UNCERTAIN", "UNKNOWN", "UNSURE", "ERROR"] : List String) ∧
    normalizeDecision (Json.str " maybe ") = "ERROR" :=
  ⟨by decide, c4_amended.1 " maybe " (by decide)⟩

/-! ### Branch lemmas for `screenPatient` -/

theorem sp_init_error (pd : Json) (gen : Except String (Option String))
    (p : String → Except String Json) (e : String) (h : isNonEmptyDict pd = true) :
    screenPatient pd (Except.error e) gen p =
      errRecord ("Model init failed: " ++ e) [] := by
  unfold screenPatient
  simp [h]

theorem sp_gen_error (pd : Json) (p : String → Except String Json) (e : String)
    (h : isNonEmptyDict pd = true) :
    screenPatient pd (Except.ok ()) (Except.error e) p = errRecord e [] := by
  unfold screenPatient
  simp [h]

theorem sp_no_json (pd : Json) (p : String → Except String Json)
    (t : Option String) (h : isNonEmptyDict pd = true)
    (hc : extractJsonCandidate (t.getD "") = "") :
    screenPatient pd (Except.ok ()) (Except.ok t) p =
      errRecord ("No JSON found in model response. Raw: " ++ pyTake 100 (t.getD "")) [] := by
  unfold screenPatient
  simp [h, hc]

theorem sp_parse_error (pd : Json) (p : String → Except String Json)
    (t : Option String) (e : String) (h : isNonEmptyDict pd = true)
    (hc : extractJsonCandidate (t.getD "") ≠ "")
    (hp : p (extractJsonCandidate (t.getD "")) = Except.error e) :
    screenPatient pd (Except.ok ()) (Except.ok t) p =
      errRecord ("Failed to parse JSON: " ++ e) [] := by
  unfold screenPatient
  simp [h, hc, hp]

theorem sp_not_obj (pd : Json) (p : String → Except String Json)
    (t : Option String) (j : Json) (h : isNonEmptyDict pd = true)
    (hc : extractJsonCandidate (t.getD "") ≠ "")
    (hp : p (extractJsonCandidate (t.getD "")) = Except.ok j)
    (hj : ∀ fl, j ≠ Json.obj fl) :
    screenPatient pd (Except.ok ()) (Except.ok t) p =
      errRecord "Parsed JSON is not an object." [] := by
  cases j with
  | obj fl => exact absurd rfl (hj fl)
  | null => unfold screenPatient; simp [h, hc, hp]
  | bool b => unfold screenPatient; simp [h, hc, hp]
  | num n => unfold screenPatient; simp [h, hc, hp]
  | str s => unfold screenPatient; simp [h, hc, hp]
  | arr l => unfold screenPatient; simp [h, hc, hp]

theorem sp_success (pd : Json) (p : String → Except String Json)
    (t : Option String) (fl : List (String × Json)) (h : isNonEmptyDict pd = true)
    (hc : extractJsonCandidate (t.getD "") ≠ "")
    (hp : p (extractJsonCandidate (t.getD "")) = Except.ok (Json.obj fl)) :
    screenPatient pd (Except.ok ()) (Except.ok t) p =
      fixedToScreen (validateAndFix (rawOfObj fl)).1 := by
  unfold screenPatient
  simp [h, hc, hp]

theorem screenPatient_decision_mem (pd : Json) (ini : Except String Unit)
    (gen : Except String (Option String)) (p : String → Except String Json) :
    (screenPatient pd ini gen p).decision ∈ allowedDecisions := by
  by_cases hpd : isNonEmptyDict pd = false
  · unfold screenPatient
    rw [if_pos hpd]
    decide
  · have h : isNonEmptyDict pd = true := by
      cases hv : isNonEmptyDict pd
      · exact absurd hv hpd
      · rfl
    cases ini with
    | error e =>
      rw [sp_init_error pd gen p e h]
      simp [errRecord, allowedDecisions]
    | ok u =>
      cases u
      cases gen with
      | error e =>
        rw [sp_gen_error pd p e h]
        simp [errRecord, allowedDecisions]
      | ok t =>
        by_cases hc : extractJsonCandidate (t.getD "") = ""
        · rw [sp_no_json pd p t h hc]
          simp [errRecord, allowedDecisions]
        · cases hp : p (extractJsonCandidate (t.getD "")) with
          | error e =>
            rw [sp_parse_error pd p t e h hc hp]
            simp [errRecord, allowedDecisions]
          | ok j =>
            cases j with
            | obj fl =>
              rw [sp_success pd p t fl h hc hp]
              exact vaf_decision_mem _
            | null =>
              rw [sp_not_obj pd p t _ h hc hp (by intro fl hf; cases hf)]
              simp [errRecord, allowedDecisions]
            | bool b =>
              rw [sp_not_obj pd p t _ h hc hp (by intro fl hf; cases hf)]
              simp [errRecord, allowedDecisions]
            | num n =>
              rw [sp_not_obj pd p t _ h hc hp (by intro fl hf; cases hf)]
              simp [errRecord, allowedDecisions]
            | str s =>
              rw [sp_not_obj pd p t _ h hc hp (by intro fl hf; cases hf)]
              simp [errRecord, allowedDecisions]
            | arr l =>
              rw [sp_not_obj pd p t _ h hc hp (by intro fl hf; cases hf)]
              simp [errRecord, allowedDecisions]

/-- C3: for every input, the decision of the record produced by
`_normalize_decision`, by `_validate_and_fix_result`, and by every return
path of `screen_patient` is one of exactly `ELIGIBLE`, `INELIGIBLE`,
`UNCERTAIN`, `ERROR` — never any other string, even when the model emits an
unrecognized value. -/
theorem c3_decision_enum :
    (∀ v : Json, normalizeDecision v ∈ allowedDecisions) ∧
    (∀ r : RawResult, (validateAndFix r).1.decision ∈ allowedDecisions) ∧
    (∀ (pd : Json) (ini : Except String Unit) (gen : Except String (Option String))
       (p : String → Except String Json),
      (screenPatient pd ini gen p).decision ∈ allowedDecisions) :=
  ⟨normalizeDecision_mem, vaf_decision_mem, screenPatient_decision_mem⟩

/-- C6 counterexample: on a failure path (here a model-invocation failure)
`screen_patient` returns a dict carrying only `decision`, `reason` and
`missing_info`; the four criteria-list fields of the spec's seven-field
DecisionRecord are absent (`none`), so the record returned by failure paths
is not a well-formed DecisionRecord in the sense of the data model. -/
theorem c6_counterexample :
    (screenPatient (Json.obj [("age", Json.num 50)]) (Except.ok ())
        (Except.error "quota exceeded") (fun _ => Except.error "x")).decision = "ERROR" ∧
    (screenPatient (Json.obj [("age", Json.num 50)]) (Except.ok ())
        (Except.error "quota exceeded") (fun _ => Except.error "x")).inclusion_criteria_met = none ∧
    (screenPatient (Json.obj [("age", Json.num 50)]) (Except.ok ())
        (Except.error "quota exceeded") (fun _ => Except.error "x")).inclusion_criteria_not_met = none ∧
    (screenPatient (Json.obj [("age", Json.num 50)]) (Except.ok ())
        (Except.error "quota exceeded") (fun _ => Except.error "x")).exclusion_criteria_met = none ∧
    (screenPatient (Json.obj [("age", Json.num 50)]) (Except.ok ())
        (Except.error "quota exceeded") (fun _ => Except.error "x")).exclusion_criteria_not_met = none := by
  refine ⟨by decide, by decide, by decide, by decide, by decide⟩

/-- C6 amended: `screen_patient` (a total function in this embedding: every
exception of the guarded region is caught and converted) returns on every
failure path a three-key record with decision `ERROR` — the four
criteria-list fields are absent rather than defaulted — and on extraction
failure the reason embeds the first 100 characters of the raw model text;
the decision is always one of the four canonical values. -/
theorem c6_amended :
    ∀ (pd : Json) (ini : Except String Unit) (gen : Except String (Option String))
      (p : String → Except String Json),
    (screenPatient pd ini gen p).decision ∈ allowedDecisions ∧
    (∀ e, isNonEmptyDict pd = true → ini = Except.error e →
      screenPatient pd ini gen p = errRecord ("Model init failed: " ++ e) []) ∧
    (∀ e, isNonEmptyDict pd = true → ini = Except.ok () → gen = Except.error e →
      screenPatient pd ini gen p = errRecord e []) ∧
    (∀ t, isNonEmptyDict pd = true → ini = Except.ok () → gen = Except.ok t →
      extractJsonCandidate (t.getD "") = "" →
      screenPatient pd ini gen p =
        errRecord ("No JSON found in model response. Raw: " ++ pyTake 100 (t.getD "")) []) ∧
    (∀ t e, isNonEmptyDict pd = true → ini = Except.ok () → gen = Except.ok t →
      extractJsonCandidate (t.getD "") ≠ "" →
      p (extractJsonCandidate (t.getD "")) = Except.error e →
      screenPatient pd ini gen p = errRecord ("Failed to parse JSON: " ++ e) []) ∧
    (∀ t j, isNonEmptyDict pd = true → ini = Except.ok () → gen = Except.ok t →
      extractJsonCandidate (t.getD "") ≠ "" →
      p (extractJsonCandidate (t.getD "")) = Except.ok j → (∀ fl, j ≠ Json.obj fl) →
      screenPatient pd ini gen p = errRecord "Parsed JSON is not an object." []) := by
  intro pd ini gen p
  refine ⟨screenPatient_decision_mem pd ini gen p, ?_, ?_, ?_, ?_, ?_⟩
  · intro e h hi
    subst hi
    exact sp_init_error pd gen p e h
  · intro e h hi hg
    subst hi
    subst hg
    exact sp_gen_error pd p e h
  · intro t h hi hg hc
    subst hi
    subst hg
    exact sp_no_json pd p t h hc
  · intro t e h hi hg hc hp
    subst hi
    subst hg
    exact sp_parse_error pd p t e h hc hp
  · intro t j h hi hg hc hp hj
    subst hi
    subst hg
    exact sp_not_obj pd p t j h hc hp hj

theorem c6_witness :
    isNonEmptyDict (Json.obj [("age", Json.num 50)]) = true ∧
    extractJsonCandidate ((some "no json here").getD "") = "" ∧
    screenPatient (Json.obj [("age", Json.num 50)]) (Except.ok ())
        (Except.ok (some "no json here")) (fun _ => Except.error "boom") =
      errRecord ("No JSON found in model response. Raw: " ++
        pyTake 100 ((some "no json here").getD "")) [] :=
  ⟨by decide, by decide,
   (c6_amended (Json.obj [("age", Json.num 50)]) (Except.ok ())
       (Except.ok (some "no json here")) (fun _ => Except.error "boom")).2.2.2.1
     (some "no json here") (by decide) rfl rfl (by decide)⟩

/-- C9: whenever an override rule fires, an audit note is appended to the
reason, and the note is bounded: it cites at most the first two collected
warnings (`warnings[:2]`); for the input
`{"decision": "ELIGIBLE", "missing_info": ["eGFR"]}` with all other keys
absent, the final decision is `UNCERTAIN` and the reason contains the
audit-note marker. -/
theorem c9_audit_note :
    (∀ r : RawResult, vafDecision1 r = "ELIGIBLE" →
      ((validateAndFix r).1.exclusion_criteria_met ≠ [] ∨
       (validateAndFix r).1.inclusion_criteria_not_met ≠ [] ∨
       (validateAndFix r).1.missing_info ≠ []) →
      (validateAndFix r).1.decision ≠ "ERROR" ∧
      ∃ base, (validateAndFix r).1.reason =
        base ++ (" | Validation: " ++
          String.intercalate "; " ((validateAndFix r).2.take 2))) ∧
    ((validateAndFix ⟨some (Json.str "ELIGIBLE"), none, none, none, none, none,
        some (Json.arr [Json.str "eGFR"])⟩).1.decision = "UNCERTAIN" ∧
     hasSub " | Validation: ".data
       (validateAndFix ⟨some (Json.str "ELIGIBLE"), none, none, none, none, none,
         some (Json.arr [Json.str "eGFR"])⟩).1.reason.data = true) := by
  constructor
  · intro r hd hlist
    rw [vaf_ecm, vaf_icnm, vaf_mi] at hlist
    have hfire : ∃ X w, applyRules (vafDecision1 r)
        (ensureList (r.exclusion_criteria_met.getD (Json.arr [])))
        (ensureList (r.inclusion_criteria_not_met.getD (Json.arr [])))
        (ensureList (r.missing_info.getD (Json.arr []))) = (X, [w]) ∧
        X ∈ (["INELIGIBLE", "UNCERTAIN"] : List String) := by
      rcases applyRules_cases (vafDecision1 r)
          (ensureList (r.exclusion_criteria_met.getD (Json.arr [])))
          (ensureList (r.inclusion_criteria_not_met.getD (Json.arr [])))
          (ensureList (r.missing_info.getD (Json.arr [])))
        with ⟨_, _, hr⟩ | ⟨_, _, _, hr⟩ | ⟨_, _, _, _, hr⟩ | ⟨hc, _⟩
      · exact ⟨_, _, hr, by decide⟩
      · exact ⟨_, _, hr, by decide⟩
      · exact ⟨_, _, hr, by decide⟩
      · rcases hc with hc | ⟨he, hi, hm⟩
        · exact absurd hd hc
        · rcases hlist with hl | hl | hl
          · exact absurd (List.length_eq_zero.mp he) hl
          · exact absurd (List.length_eq_zero.mp hi) hl
          · exact absurd (List.length_eq_zero.mp hm) hl
    obtain ⟨X, w, hr, hX⟩ := hfire
    have hXmem : X ∈ allowedDecisions := by
      rcases List.mem_cons.mp hX with rfl | hX2
      · decide
      · rcases List.mem_singleton.mp hX2 with rfl
        decide
    have hdec : (validateAndFix r).1.decision = X := by
      rw [vaf_decision_rules, hr]
    have hdne : (validateAndFix r).1.decision ≠ "ERROR" := by
      rw [hdec]
      rcases List.mem_cons.mp hX with rfl | hX2
      · decide
      · rcases List.mem_singleton.mp hX2 with rfl
        decide
    refine ⟨hdne, ?_⟩
    have hw : (validateAndFix r).2 =
        (vafFillWarnings r ++ (vafReasonPair r).2 ++ (vafReasonStr r).2) ++ [w] := by
      rw [vaf_warnings, hr]
      rw [finalGuard_of_mem _ hXmem]
      simp
    have hwne : (validateAndFix r).2 ≠ [] := by
      rw [hw]
      simp
    rw [vaf_reason]
    unfold appendNote
    rw [if_pos ⟨hwne, hdne⟩]
    by_cases hb : pyStrip (vafReasonStr r).1 ≠ ""
    · rw [if_pos hb]
      exact ⟨pyStrip (vafReasonStr r).1, rfl⟩
    · rw [if_neg hb]
      exact ⟨"Validation applied.", rfl⟩
  · exact ⟨by decide, by decide⟩

theorem c9_witness :
    vafDecision1 ⟨some (Json.str "ELIGIBLE"), some (Json.str "ok"), none, none,
      none, none, some (Json.arr [Json.str "eGFR", Json.str "LDL"])⟩ = "ELIGIBLE" ∧
    ((validateAndFix ⟨some (Json.str "ELIGIBLE"), some (Json.str "ok"), none, none,
      none, none, some (Json.arr [Json.str "eGFR", Json.str "LDL"])⟩).1.missing_info ≠ []) ∧
    ((validateAndFix ⟨some (Json.str "ELIGIBLE"), some (Json.str "ok"), none, none,
      none, none, some (Json.arr [Json.str "eGFR", Json.str "LDL"])⟩).1.decision ≠ "ERROR" ∧
     ∃ base, (validateAndFix ⟨some (Json.str "ELIGIBLE"), some (Json.str "ok"), none, none,
      none, none, some (Json.arr [Json.str "eGFR", Json.str "LDL"])⟩).1.reason =
        base ++ (" | Validation: " ++
          String.intercalate "; " ((validateAndFix ⟨some (Json.str "ELIGIBLE"),
            some (Json.str "ok"), none, none, none, none,
            some (Json.arr [Json.str "eGFR", Json.str "LDL"])⟩).2.take 2))) :=
  ⟨by decide, by decide,
   c9_audit_note.1 _ (by decide) (Or.inr (Or.inr (by decide)))⟩

/-! ### Lemmas about the JSON extractor -/

theorem braceDelta_cons (c : Char) (t : List Char) :
    braceDelta (c :: t) =
      (if c = '\x7b' then 1 else if c = '\x7d' then -1 else 0) + braceDelta t := rfl

theorem braceDelta_append (a b : List Char) :
    braceDelta (a ++ b) = braceDelta a + braceDelta b := by
  induction a with
  | nil => simp [braceDelta]
  | cons c t ih =>
    rw [List.cons_append, braceDelta_cons, braceDelta_cons, ih]
    ring

theorem scanFrom_balanced (l : List Char) : ∀ (post : List Char) (d : Int),
    1 ≤ d →
    (∀ p, (∃ q, p ++ q = l) → p ≠ [] → p ≠ l → 0 < d + braceDelta p) →
    d + braceDelta l = 0 →
    scanFrom d (l ++ post) = some l := by
  induction l with
  | nil =>
    intro post d hd _ hsum
    simp only [braceDelta] at hsum
    omega
  | cons c t ih =>
    intro post d hd hpre hsum
    rw [List.cons_append]
    rw [braceDelta_cons] at hsum
    by_cases hc : c = '\x7b'
    · subst hc
      rw [if_pos rfl] at hsum
      have ht : scanFrom (d + 1) (t ++ post) = some t := by
        apply ih post (d + 1) (by omega)
        · intro p hq hne hnl
          obtain ⟨q, hq⟩ := hq
          have hp := hpre ('\x7b' :: p) ⟨q, by rw [List.cons_append, hq]⟩ (by simp)
            (by simp only [ne_eq, List.cons.injEq, true_and]; exact hnl)
          rw [braceDelta_cons, if_pos rfl] at hp
          omega
        · omega
      rw [scanFrom, if_pos rfl, ht]
    · by_cases hc2 : c = '\x7d'
      · subst hc2
        rw [if_neg hc, if_pos rfl] at hsum
        cases t with
        | nil =>
          have hd1 : d = 1 := by
            simp only [braceDelta] at hsum
            omega
          subst hd1
          rw [List.nil_append, scanFrom, if_neg (by decide), if_pos rfl,
            if_pos (by norm_num)]
        | cons c2 t2 =>
          have hdgt : 0 < d - 1 := by
            have hp := hpre ['\x7d'] ⟨c2 :: t2, rfl⟩ (by simp) (by simp)
            rw [braceDelta_cons, if_neg (by decide), if_pos rfl] at hp
            simp only [braceDelta] at hp
            omega
          have ht : scanFrom (d - 1) ((c2 :: t2) ++ post) = some (c2 :: t2) := by
            apply ih post (d - 1) (by omega)
            · intro p hq hne hnl
              obtain ⟨q, hq⟩ := hq
              have hp := hpre ('\x7d' :: p) ⟨q, by rw [List.cons_append, hq]⟩ (by simp)
                (by simp only [ne_eq, List.cons.injEq, true_and]; exact hnl)
              rw [braceDelta_cons, if_neg (by decide), if_pos rfl] at hp
              omega
            · omega
          rw [scanFrom, if_neg (by decide), if_pos rfl, if_neg (by omega), ht]
      · rw [if_neg hc, if_neg hc2] at hsum
        have ht : scanFrom d (t ++ post) = some t := by
          apply ih post d hd
          · intro p hq hne hnl
            obtain ⟨q, hq⟩ := hq
            have hp := hpre (c :: p) ⟨q, by rw [List.cons_append, hq]⟩ (by simp)
              (by simp only [ne_eq, List.cons.injEq, true_and]; exact hnl)
            rw [braceDelta_cons, if_neg hc, if_neg hc2] at hp
            omega
          · omega
        rw [scanFrom, if_neg hc, if_neg hc2, ht]

theorem leadsWith_cons_false (a : Char) (as l : List Char)
    (h : ∀ c, l.head? = some c → (a == c) = false) : leadsWith (a :: as) l = false := by
  cases l with
  | nil => rfl
  | cons b bs =>
    show ((a == b) && leadsWith as bs) = false
    rw [h b rfl]
    rfl

theorem fenceSearch_none (l : List Char) (h : ∀ c ∈ l, c ≠ '\x60') :
    fenceSearch l = none := by
  induction l with
  | nil => rfl
  | cons c rest ih =>
    have hcp : leadsWith "```".data (c :: rest) = false := by
      rw [show ("```" : String).data = '\x60' :: '\x60' :: '\x60' :: [] from rfl]
      apply leadsWith_cons_false
      intro x hx
      simp only [List.head?_cons, Option.some.injEq] at hx
      subst hx
      exact beq_eq_false_iff_ne.mpr (fun he => (h c (by simp)) he.symm)
    have ht : tryFenceAt (c :: rest) = none := by
      unfold tryFenceAt
      rw [if_neg (by simp [hcp])]
    rw [fenceSearch, ht]
    exact ih (fun x hx => h x (List.mem_cons_of_mem _ hx))

theorem dropWhile_append_no_brace (pre x : List Char) (h : ∀ c ∈ pre, c ≠ '\x7b') :
    (pre ++ x).dropWhile (fun c => c != '\x7b') = x.dropWhile (fun c => c != '\x7b') := by
  induction pre with
  | nil => rfl
  | cons c t ih =>
    rw [List.cons_append, List.dropWhile_cons, if_pos (bne_iff_ne.mpr (h c (by simp)))]
    exact ih (fun y hy => h y (List.mem_cons_of_mem _ hy))

theorem mk_data (s : String) : String.mk s.data = s := rfl

/-- C5 counterexample: the prose before the JSON object may itself contain a
brace; the text below embeds the valid JSON object `{"k":1}` after the prose
`a {b} `, yet the extractor (no fenced block, so first-brace depth matching)
returns `{b}` — not the object's text — even though no brace sits inside a
string literal of the object. -/
theorem c5_counterexample :
    "a \x7bb\x7d \x7b\"k\":1\x7d" = "a \x7bb\x7d " ++ "\x7b\"k\":1\x7d" ∧
    extractJsonCandidate ("a \x7bb\x7d " ++ "\x7b\"k\":1\x7d") = "\x7bb\x7d" ∧
    ("\x7bb\x7d" : String) ≠ "\x7b\"k\":1\x7d" := by
  refine ⟨by decide, by decide, by decide⟩

/-- C5 amended: the byte-for-byte extraction guarantee holds on the
brace-matching path under the conditions the counterexample forces: when the
prose before the object contains no `{` of its own (and no triple-backtick
fence triggers rule 1 — here: no backtick at all), and the object's text is
brace-balanced in the counter's sense (every proper non-empty prefix has
positive running brace count, the whole has zero — which holds for real
JSON objects exactly when no brace sits inside a string literal), then
`_extract_json_candidate` returns exactly the object's text. -/
theorem c5_amended (pre obj post : String)
    (hpre : ∀ c ∈ pre.data, c ≠ '\x7b')
    (hticks : ∀ c ∈ (pre ++ obj ++ post).data, c ≠ '\x60')
    (hlen2 : 1 < obj.data.length)
    (hbal : braceDelta obj.data = 0)
    (hpref : ∀ n ∈ List.range obj.data.length, 0 < n →
      0 < braceDelta (obj.data.take n)) :
    extractJsonCandidate (pre ++ obj ++ post) = obj := by
  have hne : obj.data ≠ [] := by
    intro h0
    rw [h0] at hlen2
    simp at hlen2
  have hpre' : ∀ p, (∃ q, p ++ q = obj.data) → p ≠ [] → p ≠ obj.data →
      0 < braceDelta p := by
    intro p hq hne' hnl
    obtain ⟨q, hq⟩ := hq
    have hql : q ≠ [] := by
      intro h0
      rw [h0, List.append_nil] at hq
      exact hnl hq
    have hlen : p.length < obj.data.length := by
      rw [← hq, List.length_append]
      have : 0 < q.length := List.length_pos.mpr hql
      omega
    have hp : p = obj.data.take p.length := by
      rw [← hq, List.take_left]
    rw [hp] at hne' ⊢
    exact hpref p.length (List.mem_range.mpr hlen)
      (by cases hn0 : p.length with
        | zero => rw [hp, hn0] at hne'; simp at hne'
        | succ k => omega)
  obtain ⟨c0, t0, hobj⟩ := List.exists_cons_of_ne_nil hne
  have ht0 : t0 ≠ [] := by
    intro h0
    rw [hobj, h0] at hlen2
    simp at hlen2
  have hc0 : c0 = '\x7b' := by
    have hp := hpre' [c0] ⟨t0, by simp [hobj]⟩ (by simp)
      (by rw [hobj]
          simp only [ne_eq, List.cons.injEq, true_and]
          exact fun h => ht0 h.symm)
    rw [braceDelta_cons] at hp
    by_cases h1 : c0 = '\x7b'
    · exact h1
    · by_cases h2 : c0 = '\x7d'
      · rw [if_neg h1, if_pos h2] at hp
        simp only [braceDelta] at hp
        omega
      · rw [if_neg h1, if_neg h2] at hp
        simp only [braceDelta] at hp
        omega
  have hlast : obj.data.getLast? = some '\x7d' := by
    have hdecomp : obj.data.dropLast ++ [obj.data.getLast hne] = obj.data :=
      List.dropLast_append_getLast hne
    have hinit_ne : obj.data.dropLast ≠ [] := by
      intro h0
      have hlen1 := congrArg List.length hdecomp
      rw [h0, List.nil_append] at hlen1
      simp only [List.length_singleton] at hlen1
      omega
    have hinit_nl : obj.data.dropLast ≠ obj.data := by
      intro h0
      have := congrArg List.length hdecomp
      rw [h0] at this
      simp at this
    have hp := hpre' obj.data.dropLast ⟨[obj.data.getLast hne], hdecomp⟩ hinit_ne hinit_nl
    have hsum := congrArg braceDelta hdecomp
    rw [braceDelta_append, hbal, braceDelta_cons] at hsum
    set b := obj.data.getLast hne with hb
    have hbv : b = '\x7d' := by
      by_cases h1 : b = '\x7b'
      · rw [if_pos h1] at hsum
        simp only [braceDelta] at hsum
        omega
      · by_cases h2 : b = '\x7d'
        · exact h2
        · rw [if_neg h1, if_neg h2] at hsum
          simp only [braceDelta] at hsum
          omega
    rw [← List.dropLast_append_getLast hne, ← hb, hbv, List.getLast?_concat]
  have hstrip : stripChars obj.data = obj.data := by
    apply stripChars_eq_self
    · intro a ha
      rw [hobj, List.head?_cons, Option.some.injEq] at ha
      rw [← ha, hc0]
      decide
    · intro b hbmem
      rw [hlast, Option.some.injEq] at hbmem
      rw [← hbmem]
      decide
  have hdata : (pre ++ obj ++ post).data = pre.data ++ (obj.data ++ post.data) := by
    rw [String.data_append, String.data_append, List.append_assoc]
  have htextne : (pre ++ obj ++ post) ≠ "" := by
    intro h0
    have h1 := congrArg String.data h0
    rw [hdata] at h1
    simp only [show ("" : String).data = [] from rfl, List.append_eq_nil] at h1
    exact hne h1.2.1
  have hscan : scanFrom 0 (obj.data ++ post.data) = some obj.data := by
    rw [hobj, List.cons_append, hc0, scanFrom, if_pos rfl]
    have hbody : scanFrom (0 + 1) (t0 ++ post.data) = some t0 := by
      apply scanFrom_balanced t0 post.data (0 + 1) (by norm_num)
      · intro p hq hne' hnl
        obtain ⟨q, hq⟩ := hq
        have hp := hpre' ('\x7b' :: p) ⟨q, by rw [List.cons_append, hq, hobj, hc0]⟩
          (by simp)
          (by rw [hobj, hc0]
              simp only [ne_eq, List.cons.injEq, true_and]
              exact hnl)
        rw [braceDelta_cons, if_pos rfl] at hp
        omega
      · have : braceDelta obj.data = 1 + braceDelta t0 := by
          rw [hobj, hc0, braceDelta_cons, if_pos rfl]
        omega
    rw [hbody]
  unfold extractJsonCandidate
  rw [if_neg htextne, hdata]
  rw [fenceSearch_none _ (fun c hc => hticks c (by rw [hdata]; exact hc))]
  rw [dropWhile_append_no_brace pre.data _ hpre]
  have hdw : (obj.data ++ post.data).dropWhile (fun c => c != '\x7b') =
      obj.data ++ post.data := by
    rw [hobj, hc0, List.cons_append, List.dropWhile_cons, if_neg (by simp)]
  rw [hdw]
  rw [show obj.data ++ post.data = (c0 :: t0) ++ post.data from by rw [hobj]]
  rw [List.cons_append]
  show (match scanFrom 0 (c0 :: (t0 ++ post.data)) with
    | some g => String.mk (stripChars g)
    | none => "") = obj
  rw [show c0 :: (t0 ++ post.data) = obj.data ++ post.data from by
    rw [hobj, List.cons_append]]
  rw [hscan]
  show String.mk (stripChars obj.data) = obj
  rw [hstrip, mk_data]

theorem c5_witness :
    (∀ c ∈ ("prose: " : String).data, c ≠ '\x7b') ∧
    (∀ c ∈ ("prose: " ++ "\x7b\"a\": \x7b\"b\": 1\x7d\x7d" ++ " done.").data, c ≠ '\x60') ∧
    1 < ("\x7b\"a\": \x7b\"b\": 1\x7d\x7d" : String).data.length ∧
    braceDelta ("\x7b\"a\": \x7b\"b\": 1\x7d\x7d" : String).data = 0 ∧
    (∀ n ∈ List.range ("\x7b\"a\": \x7b\"b\": 1\x7d\x7d" : String).data.length, 0 < n →
      0 < braceDelta (("\x7b\"a\": \x7b\"b\": 1\x7d\x7d" : String).data.take n)) ∧
    extractJsonCandidate ("prose: " ++ "\x7b\"a\": \x7b\"b\": 1\x7d\x7d" ++ " done.") =
      "\x7b\"a\": \x7b\"b\": 1\x7d\x7d" :=
  ⟨by decide, by decide, by decide, by decide, by decide,
   c5_amended "prose: " "\x7b\"a\": \x7b\"b\": 1\x7d\x7d" " done."
     (by decide) (by decide) (by decide) (by decide) (by decide)⟩
